import Mathlib

/-! # CampusHire job routes

A shallow embedding of `backend/routes/jobRoutes.js`: the seven request
handlers of the job router as pure functions from a store (and the request's
inputs) to a new store and a response.

Modelling conventions.

* The document store is an explicit value (`Store`); a handler returns the
  store it leaves behind together with the response it sends.
* `new Date()` is an explicit argument `now`; dates are compared through their
  numeric time value, as JavaScript does.
* A scalar field that may be `undefined` is an `Option`; array fields are
  lists (an absent array field is the empty list).
* The Mongoose schema of `Job` lives in `models/Job.js`, outside this file's
  source, so the validation that `save()` runs is a parameter `validate`;
  `save({ validateBeforeSave: false })` does not consult it.
* The handlers are modelled from the point where the `protect` /
  `authorizeRecruiter` middleware has handed over; `req.user` is the
  `Option User` the middleware resolved.
-/

namespace CampusHire

/-- Document identifiers (`ObjectId`).  Two identifiers have the same
`toString()` exactly when they are equal. -/
abbrev ObjectId := Nat

/-- JavaScript truthiness of an optional string: `undefined` and the empty
string are falsy, every other string is truthy. -/
def truthy : Option String → Bool
  | none => false
  | some v => v != ""

/-! ## Data model -/

/-- The identity `req.user` resolved by the authentication middleware. -/
structure User where
  _id : ObjectId
  org_name : Option String
  name : Option String
  applied_jobs : List ObjectId
  deriving DecidableEq, Repr

/-- A stored student. -/
structure Student where
  _id : ObjectId
  name : Option String
  email : Option String
  branch : String
  course : String
  deriving DecidableEq, Repr

/-- A stored recruiter; also used for the projection `populate` puts in the
place of `company_id`, where the fields outside the projection are `none`. -/
structure Recruiter where
  _id : ObjectId
  org_name : Option String
  category : Option String
  participation_type : Option String
  contact_email : Option String
  deriving DecidableEq, Repr

/-- A stored job posting. -/
structure Job where
  _id : ObjectId
  company_id : ObjectId
  branches_eligible : List String
  courses_eligible : List String
  job_type : Option String
  job_category : Option String
  job_deadline : Option Int
  job_status : Option String
  applicants : List ObjectId
  deriving DecidableEq, Repr

/-- A request body for create / update: each field is either named with a
value or not named.  The identifier `_id` is generated by the store and is not
a body field. -/
structure JobBody where
  company_id : Option ObjectId
  branches_eligible : Option (List String)
  courses_eligible : Option (List String)
  job_type : Option String
  job_category : Option String
  job_deadline : Option Int
  job_status : Option String
  applicants : Option (List ObjectId)
  deriving DecidableEq, Repr

/-- The query string of the student listing. -/
structure Query where
  job_type : Option String
  job_category : Option String
  participation_type : Option String
  category : Option String
  deriving DecidableEq, Repr

/-- A job document after `populate`: `company` is the joined recruiter
projection (`none` when the reference does not resolve), `applicant_docs` the
joined applicants (only the recruiter listing joins them). -/
structure PopulatedJob where
  job : Job
  company : Option Recruiter
  applicant_docs : List Student
  deriving DecidableEq, Repr

/-- The document store.  `nextId` is the supply of fresh identifiers. -/
structure Store where
  jobs : List Job
  students : List Student
  recruiters : List Recruiter
  nextId : ObjectId
  deriving DecidableEq, Repr

/-- What a handler sends back. -/
inductive Response where
  | created (job : Job)
  | jobList (jobs : List PopulatedJob)
  | jobDoc (job : PopulatedJob)
  | updated (job : Job)
  | deleted
  | appliedJobs (ids : List ObjectId)
  | error (status : Nat)
  deriving DecidableEq, Repr

/-! ## Store primitives -/

/-- Source: `Job.findById(id)`. -/
def Store.findById (s : Store) (id : ObjectId) : Option Job :=
  s.jobs.find? (fun j => j._id == id)

/-- Source: `Student.findById(id)`. -/
def Store.findStudent (s : Store) (id : ObjectId) : Option Student :=
  s.students.find? (fun t => t._id == id)

/-- The recruiter a `company_id` refers to. -/
def Store.findRecruiter (s : Store) (id : ObjectId) : Option Recruiter :=
  s.recruiters.find? (fun r => r._id == id)

/-- Source: `doc.save()` of a document that was read from the store: the stored record
with the document's `_id` becomes the document. -/
def Store.save (s : Store) (doc : Job) : Store :=
  { s with jobs := s.jobs.map (fun j => if j._id = doc._id then doc else j) }

/-- Source: `doc.save()` of a new document. -/
def Store.insert (s : Store) (doc : Job) : Store :=
  { s with jobs := s.jobs ++ [doc], nextId := s.nextId + 1 }

/-- Source: `doc.deleteOne()`. -/
def Store.deleteOne (s : Store) (doc : Job) : Store :=
  { s with jobs := s.jobs.filter (fun j => j._id != doc._id) }

/-! ## Populate -/

/-- Projection `"org_name category participation_type"`. -/
def projListing (r : Recruiter) : Recruiter :=
  { r with contact_email := none }

/-- Projection `"org_name"`. -/
def projOrgName (r : Recruiter) : Recruiter :=
  { r with category := none, participation_type := none, contact_email := none }

/-- Projection `"org_name contact_email"`. -/
def projContact (r : Recruiter) : Recruiter :=
  { r with category := none, participation_type := none }

/-- Projection `"name email"` of an applicant. -/
def projApplicant (t : Student) : Student :=
  { t with branch := "", course := "" }

/-- Source: `.populate("company_id", proj)`. -/
def populate (s : Store) (proj : Recruiter → Recruiter) (j : Job) : PopulatedJob :=
  { job := j, company := (s.findRecruiter j.company_id).map proj, applicant_docs := [] }

/-- Source: `.populate("applicants", "name email")`: references that do not resolve
are left out. -/
def populateApplicants (s : Store) (p : PopulatedJob) : PopulatedJob :=
  let docs := p.job.applicants.filterMap (fun a => (s.findStudent a).map projApplicant)
  { p with applicant_docs := docs }

/-! ## Expiry reconciliation -/

/-- Source: `job.job_deadline < currentDate`; an undefined deadline compares false. -/
def deadlinePassed (now : Int) (j : Job) : Bool :=
  match j.job_deadline with
  | some d => decide (d < now)
  | none => false

/-- Source: `job.job_deadline < currentDate && job.job_status !== "Expired"`. -/
def isDue (now : Int) (j : Job) : Bool :=
  deadlinePassed now j && (j.job_status != some "Expired")

/-- Source: `job.job_status = "Expired"`. -/
def markExpired (j : Job) : Job :=
  { j with job_status := some "Expired" }

/-- The loop "Mark expired jobs" followed by `Promise.all(updates)`: every
listed job that is due is flipped in place and saved without validation. -/
def reconcileAll (now : Int) : Store → List PopulatedJob → Store × List PopulatedJob
  | s, [] => (s, [])
  | s, p :: ps =>
    if isDue now p.job then
      let p1 : PopulatedJob := { p with job := markExpired p.job }
      let r := reconcileAll now (s.save p1.job) ps
      (r.1, p1 :: r.2)
    else
      let r := reconcileAll now s ps
      (r.1, p :: r.2)

/-! ## Handlers -/

/-- Source: `new Job({ ...req.body, company_id: req.user._id })` with the generated
identifier `id`. -/
def Job.construct (id : ObjectId) (body : JobBody) (caller : ObjectId) : Job :=
  { _id := id
    company_id := caller
    branches_eligible := body.branches_eligible.getD []
    courses_eligible := body.courses_eligible.getD []
    job_type := body.job_type
    job_category := body.job_category
    job_deadline := body.job_deadline
    job_status := body.job_status
    applicants := body.applicants.getD [] }

/-- Source: `Object.assign(job, req.body)`. -/
def Job.assign (j : Job) (body : JobBody) : Job :=
  { _id := j._id
    company_id := body.company_id.getD j.company_id
    branches_eligible := body.branches_eligible.getD j.branches_eligible
    courses_eligible := body.courses_eligible.getD j.courses_eligible
    job_type := match body.job_type with
      | some v => some v
      | none => j.job_type
    job_category := match body.job_category with
      | some v => some v
      | none => j.job_category
    job_deadline := match body.job_deadline with
      | some v => some v
      | none => j.job_deadline
    job_status := match body.job_status with
      | some v => some v
      | none => j.job_status
    applicants := body.applicants.getD j.applicants }

/-- Source: `POST /create`. -/
def createJob (validate : Job → Bool) (s : Store) (caller : Option User)
    (body : JobBody) : Store × Response :=
  match caller with
  | none => (s, .error 403)
  | some u =>
    if !truthy u.org_name then (s, .error 403)
    else
      let job := Job.construct s.nextId body u._id
      if validate job then (s.insert job, .created job)
      else (s, .error 400)

/-- The store query of the student listing:
`branches_eligible $in [branch]`, `courses_eligible $in [course]`, and the
exact matches on `job_type` / `job_category` when those are truthy. -/
def matchesQuery (st : Student) (q : Query) (j : Job) : Bool :=
  decide (st.branch ∈ j.branches_eligible) && decide (st.course ∈ j.courses_eligible)
    && (if truthy q.job_type then j.job_type == q.job_type else true)
    && (if truthy q.job_category then j.job_category == q.job_category else true)

/-- Source: `job.company_id?.category === req.query.category`. -/
def categoryIs (c : Option String) (p : PopulatedJob) : Bool :=
  p.company.bind (fun r => r.category) == c

/-- Source: `job.company_id?.participation_type === req.query.participation_type`. -/
def participationIs (c : Option String) (p : PopulatedJob) : Bool :=
  p.company.bind (fun r => r.participation_type) == c

/-- The two post-fetch filters of the student listing. -/
def postFilter (q : Query) (jobs : List PopulatedJob) : List PopulatedJob :=
  let jobs1 := if truthy q.category then jobs.filter (categoryIs q.category) else jobs
  if truthy q.participation_type then jobs1.filter (participationIs q.participation_type)
  else jobs1

/-- Source: `Job.find(query).populate("company_id", "org_name category participation_type")`. -/
def fetchListing (s : Store) (st : Student) (q : Query) : List PopulatedJob :=
  (s.jobs.filter (matchesQuery st q)).map (populate s projListing)

/-- Source: `GET /`. -/
def listJobs (s : Store) (caller : Option User) (q : Query) (now : Int) :
    Store × Response :=
  match caller with
  | none => (s, .error 500)
  | some u =>
    match s.findStudent u._id with
    | none => (s, .error 404)
    | some st =>
      let jobs := postFilter q (fetchListing s st q)
      let r := reconcileAll now s jobs
      (r.1, .jobList r.2)

/-- Source: `GET /recruiter`. -/
def listRecruiterJobs (s : Store) (caller : Option User) (now : Int) :
    Store × Response :=
  match caller with
  | none => (s, .error 403)
  | some u =>
    if !truthy u.org_name then (s, .error 403)
    else
      let fetched := s.jobs.filter (fun j => j.company_id == u._id)
      let jobs := fetched.map (fun j => populateApplicants s (populate s projContact j))
      let r := reconcileAll now s jobs
      (r.1, .jobList r.2)

/-- Source: `PUT /:jobId`. -/
def updateJob (validate : Job → Bool) (s : Store) (caller : Option User)
    (jobId : ObjectId) (body : JobBody) : Store × Response :=
  match s.findById jobId with
  | none => (s, .error 404)
  | some job =>
    match caller with
    | none => (s, .error 500)
    | some u =>
      if job.company_id ≠ u._id then (s, .error 403)
      else
        let job1 := job.assign body
        if validate job1 then (s.save job1, .updated job1)
        else (s, .error 500)

/-- Source: `DELETE /:jobId`. -/
def deleteJob (s : Store) (caller : Option User) (jobId : ObjectId) :
    Store × Response :=
  match s.findById jobId with
  | none => (s, .error 404)
  | some job =>
    match caller with
    | none => (s, .error 500)
    | some u =>
      if job.company_id ≠ u._id then (s, .error 403)
      else (s.deleteOne job, .deleted)

/-- Source: `GET /students/applied-jobs`. -/
def appliedJobs (s : Store) (caller : Option User) : Store × Response :=
  match caller with
  | none => (s, .error 403)
  | some u =>
    if !truthy u.name then (s, .error 403)
    else (s, .appliedJobs u.applied_jobs)

/-- Source: `GET /:jobId`. -/
def getJob (validate : Job → Bool) (s : Store) (jobId : ObjectId) (now : Int) :
    Store × Response :=
  match s.findById jobId with
  | none => (s, .error 404)
  | some job =>
    let p := populate s projOrgName job
    if isDue now job then
      let job1 := markExpired job
      if validate job1 then (s.save job1, .jobDoc { p with job := job1 })
      else (s, .error 500)
    else (s, .jobDoc p)

/-! ## Requests and runs -/

/-- A request to one of the seven routes, with the environment (resolved
caller, current time) it is served in. -/
inductive Request where
  | create (caller : Option User) (body : JobBody)
  | list (caller : Option User) (q : Query) (now : Int)
  | listRecruiter (caller : Option User) (now : Int)
  | update (caller : Option User) (jobId : ObjectId) (body : JobBody)
  | delete (caller : Option User) (jobId : ObjectId)
  | applied (caller : Option User)
  | get (jobId : ObjectId) (now : Int)
  deriving DecidableEq, Repr

/-- Serve one request. -/
def step (validate : Job → Bool) (s : Store) : Request → Store × Response
  | .create caller body => createJob validate s caller body
  | .list caller q now => listJobs s caller q now
  | .listRecruiter caller now => listRecruiterJobs s caller now
  | .update caller jobId body => updateJob validate s caller jobId body
  | .delete caller jobId => deleteJob s caller jobId
  | .applied caller => appliedJobs s caller
  | .get jobId now => getJob validate s jobId now

/-- Serve a sequence of requests one after the other; the store left behind. -/
def run (validate : Job → Bool) (s : Store) : List Request → Store
  | [] => s
  | r :: rs => run validate (step validate s r).1 rs


/-! ## Vocabulary for stating what the listings do -/

/-- What the reconciliation loop does to one listed document: a due job is
flipped to Expired, any other is left as it is. -/
def reconcile (now : Int) (p : PopulatedJob) : PopulatedJob :=
  if isDue now p.job then { p with job := markExpired p.job } else p

/-- The documents the reconciliation loop saves, in order. -/
def dueDocs (now : Int) (ps : List PopulatedJob) : List Job :=
  (ps.filter (fun p => isDue now p.job)).map (fun p => markExpired p.job)

/-- Saving a list of documents one after the other. -/
def saveAll : Store → List Job → Store
  | s, [] => s
  | s, d :: ds => saveAll (s.save d) ds

/-- What saving the documents `ds` one after the other does to the stored
record `x`: it is replaced by each saved document that carries its `_id`. -/
def overwrite : List Job → Job → Job
  | [], x => x
  | d :: ds, x => overwrite ds (if x._id = d._id then d else x)

/-- A joined job passes the post-fetch filters of query `q`: when `category` is
provided the joined recruiter's category equals it, and when
`participation_type` is provided the joined recruiter's participation type
equals it. -/
def keptBy (q : Query) (p : PopulatedJob) : Bool :=
  (!truthy q.category || categoryIs q.category p)
    && (!truthy q.participation_type || participationIs q.participation_type p)

/-- A stored job is listed for student `st` under query `q`: the store query
fetches it and the post-fetch filters keep it. -/
def listed (s : Store) (st : Student) (q : Query) (j : Job) : Bool :=
  matchesQuery st q j && keptBy q (populate s projListing j)

/-- No two stored jobs share an identifier. -/
def Store.uniqueIds (s : Store) : Prop :=
  (s.jobs.map (fun j => j._id)).Nodup

/-- Every stored job's identifier was handed out before `nextId`. -/
def Store.idsBelowNext (s : Store) : Prop :=
  ∀ j ∈ s.jobs, j._id < s.nextId

/-- The request is an update addressed to job `i` whose body names a
`job_status` other than `"Expired"`. -/
def revertsStatus (i : ObjectId) : Request → Bool
  | .update _ jobId body =>
    jobId == i && (match body.job_status with
      | some v => v != "Expired"
      | none => false)
  | _ => false

/-- Every stored job with identifier `i` is stored as Expired. -/
def Store.expiredAt (s : Store) (i : ObjectId) : Prop :=
  ∀ j ∈ s.jobs, j._id = i → j.job_status = some "Expired"

/-! ## Sample data

A small store used to evaluate the handlers on concrete requests. -/

/-- Recruiter 1. -/
def acme : Recruiter :=
  { _id := 1, org_name := some "Acme", category := some "IT",
    participation_type := some "Virtual", contact_email := some "hr@acme.test" }

/-- Recruiter 2. -/
def globex : Recruiter :=
  { _id := 2, org_name := some "Globex", category := some "Core",
    participation_type := some "Onsite", contact_email := some "hr@globex.test" }

/-- A student in branch CSE, course BTech. -/
def asha : Student :=
  { _id := 10, name := some "Asha", email := some "asha@campus.test",
    branch := "CSE", course := "BTech" }

/-- Job A: open to CSE and ECE, deadline at time 50, still marked Open. -/
def jobA : Job :=
  { _id := 100, company_id := 1, branches_eligible := ["CSE", "ECE"],
    courses_eligible := ["BTech"], job_type := some "Internship",
    job_category := some "Tech", job_deadline := some 50,
    job_status := some "Open", applicants := [10] }

/-- Job B: open to ECE only, deadline at time 500. -/
def jobB : Job :=
  { _id := 101, company_id := 2, branches_eligible := ["ECE"],
    courses_eligible := ["BTech"], job_type := some "FullTime",
    job_category := some "Tech", job_deadline := some 500,
    job_status := some "Open", applicants := [] }

/-- Job C: open to CSE, deadline at time 50, already marked Expired. -/
def jobC : Job :=
  { _id := 102, company_id := 2, branches_eligible := ["CSE"],
    courses_eligible := ["BTech"], job_type := some "FullTime",
    job_category := some "Tech", job_deadline := some 50,
    job_status := some "Expired", applicants := [] }

/-- The sample store. -/
def store0 : Store :=
  { jobs := [jobA, jobB, jobC], students := [asha], recruiters := [acme, globex],
    nextId := 103 }

/-- The identity of the student Asha. -/
def ashaUser : User :=
  { _id := 10, org_name := none, name := some "Asha", applied_jobs := [100, 102] }

/-- The identity of recruiter 1. -/
def acmeUser : User :=
  { _id := 1, org_name := some "Acme", name := none, applied_jobs := [] }

/-- The identity of recruiter 2. -/
def globexUser : User :=
  { _id := 2, org_name := some "Globex", name := none, applied_jobs := [] }

/-- An identity whose `name` field is present and empty. -/
def blankUser : User :=
  { _id := 11, org_name := none, name := some "", applied_jobs := [100] }

/-- The empty request body. -/
def emptyBody : JobBody :=
  { company_id := none, branches_eligible := none, courses_eligible := none,
    job_type := none, job_category := none, job_deadline := none,
    job_status := none, applicants := none }

/-- The query with no filter. -/
def noFilter : Query :=
  { job_type := none, job_category := none, participation_type := none, category := none }

/-- A schema validation that accepts every record. -/
def acceptAll : Job → Bool := fun _ => true

/-- A schema validation that requires `job_category` to be present. -/
def requireCategory : Job → Bool := fun j => j.job_category.isSome

/-- Job D: a record of recruiter 1 stored without `job_category`, deadline at
time 50, still marked Open. -/
def jobD : Job :=
  { _id := 103, company_id := 1, branches_eligible := ["CSE"],
    courses_eligible := ["BTech"], job_type := some "Internship",
    job_category := none, job_deadline := some 50,
    job_status := some "Open", applicants := [] }

/-- The sample store with job D added. -/
def store1 : Store :=
  { jobs := [jobA, jobB, jobC, jobD], students := [asha], recruiters := [acme, globex],
    nextId := 104 }

/-- A sequence of requests that touches job 102 in every way except an
update naming a non-Expired status. -/
def requests0 : List Request :=
  [ .get 102 1000,
    .update (some globexUser) 102 { emptyBody with job_deadline := some 9000 },
    .list (some ashaUser) noFilter 100,
    .listRecruiter (some globexUser) 100,
    .create (some globexUser) { emptyBody with job_status := some "Open" },
    .update (some globexUser) 101 { emptyBody with job_status := some "Open" },
    .delete (some acmeUser) 100,
    .applied (some ashaUser),
    .get 102 10000 ]

/-! ## Basic facts about the store primitives -/

theorem findById_id {s : Store} {id : ObjectId} {j : Job} (h : s.findById id = some j) :
    j._id = id := by
  have := List.find?_some h
  simpa using this

theorem findById_mem {s : Store} {id : ObjectId} {j : Job} (h : s.findById id = some j) :
    j ∈ s.jobs :=
  List.mem_of_find?_eq_some h

theorem find?_map_id (f : Job → Job) (hf : ∀ j, (f j)._id = j._id) (id : ObjectId) :
    ∀ l : List Job, (l.map f).find? (fun j => j._id == id)
      = (l.find? (fun j => j._id == id)).map f
  | [] => rfl
  | x :: l => by
    by_cases hx : x._id = id
    · simp [List.find?_cons, hf, hx]
    · have hb : (x._id == id) = false := by simpa using hx
      simp [List.find?_cons, hf, hb, find?_map_id f hf id l]

theorem findById_save {s : Store} {id : ObjectId} {j doc : Job}
    (h : s.findById id = some j) (hid : doc._id = id) :
    (s.save doc).findById id = some doc := by
  have hj := findById_id h
  unfold Store.findById Store.save
  simp only
  rw [find?_map_id (fun j => if j._id = doc._id then doc else j)]
  · unfold Store.findById at h
    rw [h]
    simp [hj, hid]
  · intro x
    by_cases hx : x._id = doc._id <;> simp [hx]


/-! ## Ownership (C3) -/

/-- C3. For an existing job whose `company_id` differs from the caller's id,
and for every request body, update and delete both answer 403 and leave the
store exactly as it was: the job is still found under its id afterwards and is
the same record. -/
theorem update_delete_forbidden (validate : Job → Bool) (s : Store) (u : User)
    (jobId : ObjectId) (job : Job) (body : JobBody)
    (hfind : s.findById jobId = some job) (hne : job.company_id ≠ u._id) :
    updateJob validate s (some u) jobId body = (s, .error 403)
      ∧ deleteJob s (some u) jobId = (s, .error 403)
      ∧ (updateJob validate s (some u) jobId body).1.findById jobId = some job
      ∧ (deleteJob s (some u) jobId).1.findById jobId = some job := by
  have hu : updateJob validate s (some u) jobId body = (s, .error 403) := by
    simp [updateJob, hfind, hne]
  have hd : deleteJob s (some u) jobId = (s, .error 403) := by
    simp [deleteJob, hfind, hne]
  refine ⟨hu, hd, ?_, ?_⟩
  · rw [hu]; exact hfind
  · rw [hd]; exact hfind

/-- Scenario C: recruiter 1 tries to update and to delete job 102, which
recruiter 2 owns. -/
theorem update_delete_forbidden_witness :
    updateJob acceptAll store0 (some acmeUser) 102 { emptyBody with job_status := some "Open" }
        = (store0, .error 403)
      ∧ deleteJob store0 (some acmeUser) 102 = (store0, .error 403)
      ∧ (updateJob acceptAll store0 (some acmeUser) 102
          { emptyBody with job_status := some "Open" }).1.findById 102 = some jobC
      ∧ (deleteJob store0 (some acmeUser) 102).1.findById 102 = some jobC :=
  update_delete_forbidden acceptAll store0 acmeUser 102 jobC
    { emptyBody with job_status := some "Open" } (by decide) (by decide)

/-! ## Get single job (C4, C5) -/

/-- When the schema validation accepts the flipped record: an existing job
whose deadline is strictly before the current time and whose status is not
Expired is answered with `job_status = "Expired"` (joined with its
recruiter's `org_name`), and the job stored under the id afterwards is the
same job with `job_status = "Expired"`. -/
theorem getJob_expires_of_valid (validate : Job → Bool) (s : Store) (jobId : ObjectId)
    (job : Job) (d now : Int)
    (hfind : s.findById jobId = some job)
    (hdeadline : job.job_deadline = some d) (hpast : d < now)
    (hstatus : job.job_status ≠ some "Expired")
    (hvalid : validate (markExpired job) = true) :
    (getJob validate s jobId now).2
        = .jobDoc { populate s projOrgName job with job := markExpired job }
      ∧ (markExpired job).job_status = some "Expired"
      ∧ (getJob validate s jobId now).1.findById jobId = some (markExpired job) := by
  have hdue : isDue now job = true := by
    simp [isDue, deadlinePassed, hdeadline, hpast, hstatus]
  have hget : getJob validate s jobId now
      = (s.save (markExpired job),
          .jobDoc { populate s projOrgName job with job := markExpired job }) := by
    simp [getJob, hfind, hdue, hvalid]
  refine ⟨by rw [hget], rfl, ?_⟩
  rw [hget]
  have hid0 : job._id = jobId := findById_id hfind
  have hid : (markExpired job)._id = jobId := hid0
  exact findById_save hfind hid

/-- When the schema validation rejects the flipped record: the same request is
answered 500 and the store is left as it was, the job still not Expired. -/
theorem getJob_fails_of_invalid (validate : Job → Bool) (s : Store) (jobId : ObjectId)
    (job : Job) (d now : Int)
    (hfind : s.findById jobId = some job)
    (hdeadline : job.job_deadline = some d) (hpast : d < now)
    (hstatus : job.job_status ≠ some "Expired")
    (hinvalid : validate (markExpired job) = false) :
    getJob validate s jobId now = (s, .error 500) := by
  have hdue : isDue now job = true := by
    simp [isDue, deadlinePassed, hdeadline, hpast, hstatus]
  simp [getJob, hfind, hdue, hinvalid]

/-- C4, evaluated where the code departs from it.  Job 103 is stored without
`job_category`, which the schema requires; its deadline (50) is strictly
before the current time (100) and it is stored as Open.  Get single job saves
with full validation: the save is rejected, the answer is 500 and the job is
still stored as Open.  Both listings, which save the same flip with
`validateBeforeSave: false`, store the job as Expired on the same store. -/
theorem getJob_validation_blocks_expiry :
    store1.findById 103 = some jobD
      ∧ jobD.job_deadline = some 50
      ∧ jobD.job_status = some "Open"
      ∧ getJob requireCategory store1 103 100 = (store1, .error 500)
      ∧ (getJob requireCategory store1 103 100).1.findById 103 = some jobD
      ∧ (listRecruiterJobs store1 (some acmeUser) 100).1.findById 103
          = some (markExpired jobD)
      ∧ (listJobs store1 (some ashaUser) noFilter 100).1.findById 103
          = some (markExpired jobD) := by
  decide

/-- C5. For a job already stored as Expired, whatever its deadline and the
current time, get single job leaves the store identical and answers with the
job carrying `job_status = "Expired"`; a second call (at any later or earlier
time) gives the same response and again leaves the store identical. -/
theorem getJob_expired_idempotent (validate : Job → Bool) (s : Store)
    (jobId : ObjectId) (job : Job) (now now2 : Int)
    (hfind : s.findById jobId = some job)
    (hstatus : job.job_status = some "Expired") :
    getJob validate s jobId now = (s, .jobDoc (populate s projOrgName job))
      ∧ (populate s projOrgName job).job.job_status = some "Expired"
      ∧ getJob validate (getJob validate s jobId now).1 jobId now2
          = (s, .jobDoc (populate s projOrgName job)) := by
  have hdue : ∀ t, isDue t job = false := by
    intro t
    simp [isDue, hstatus]
  have hget : ∀ t, getJob validate s jobId t = (s, .jobDoc (populate s projOrgName job)) := by
    intro t
    simp [getJob, hfind, hdue t]
  refine ⟨hget now, hstatus, ?_⟩
  rw [hget now]
  exact hget now2

/-- Job 102 is stored as Expired; it is fetched at time 100 and again at
time 200, under a validation that would reject any save. -/
theorem getJob_expired_idempotent_witness :
    getJob (fun _ => false) store0 102 100 = (store0, .jobDoc (populate store0 projOrgName jobC))
      ∧ (populate store0 projOrgName jobC).job.job_status = some "Expired"
      ∧ getJob (fun _ => false) (getJob (fun _ => false) store0 102 100).1 102 200
          = (store0, .jobDoc (populate store0 projOrgName jobC)) :=
  getJob_expired_idempotent (fun _ => false) store0 102 jobC 100 200 (by decide) (by decide)

/-! ## Create (C7) -/

/-- C7. A caller carrying the recruiter marker (a non-empty `org_name`), any
request body: the job that create constructs has `company_id` equal to the
caller's id (also when the body names another `company_id`) and every other
field as the body names it; when the schema validation accepts it, that job is
appended to the store and returned, otherwise the answer is 400 and the store
is unchanged.  A caller without the marker (no identity, or `org_name` absent
or empty) gets 403 and the store is unchanged. -/
theorem createJob_spec (validate : Job → Bool) (s : Store) (caller : Option User)
    (body : JobBody) :
    (∀ u, caller = some u → truthy u.org_name = true →
      (Job.construct s.nextId body u._id).company_id = u._id
      ∧ (Job.construct s.nextId body u._id).job_type = body.job_type
      ∧ (Job.construct s.nextId body u._id).job_category = body.job_category
      ∧ (Job.construct s.nextId body u._id).job_deadline = body.job_deadline
      ∧ (Job.construct s.nextId body u._id).job_status = body.job_status
      ∧ (∀ v, body.branches_eligible = some v →
          (Job.construct s.nextId body u._id).branches_eligible = v)
      ∧ (∀ v, body.courses_eligible = some v →
          (Job.construct s.nextId body u._id).courses_eligible = v)
      ∧ (∀ v, body.applicants = some v →
          (Job.construct s.nextId body u._id).applicants = v)
      ∧ (validate (Job.construct s.nextId body u._id) = true →
          createJob validate s caller body
              = (s.insert (Job.construct s.nextId body u._id),
                  .created (Job.construct s.nextId body u._id))
            ∧ Job.construct s.nextId body u._id
                ∈ (createJob validate s caller body).1.jobs)
      ∧ (validate (Job.construct s.nextId body u._id) = false →
          createJob validate s caller body = (s, .error 400)))
    ∧ ((∀ u, caller = some u → truthy u.org_name = false) →
        createJob validate s caller body = (s, .error 403)) := by
  constructor
  · intro u hu hmark
    subst hu
    refine ⟨rfl, rfl, rfl, rfl, rfl, ?_, ?_, ?_, ?_, ?_⟩
    · intro v hv; simp [Job.construct, hv]
    · intro v hv; simp [Job.construct, hv]
    · intro v hv; simp [Job.construct, hv]
    · intro hv
      have hc : createJob validate s (some u) body
          = (s.insert (Job.construct s.nextId body u._id),
              .created (Job.construct s.nextId body u._id)) := by
        simp [createJob, hmark, hv]
      refine ⟨hc, ?_⟩
      rw [hc]
      simp [Store.insert]
    · intro hv
      simp [createJob, hmark, hv]
  · intro h
    cases caller with
    | none => rfl
    | some u => simp [createJob, h u rfl]

/-- Recruiter 1 creates a job from a body that names recruiter 2 as
`company_id`: the created job belongs to recruiter 1.  The student Asha, who
has no `org_name`, gets 403. -/
theorem createJob_spec_witness :
    (createJob acceptAll store0 (some acmeUser)
        { emptyBody with company_id := some 2, job_status := some "Open" }).2
        = .created { _id := 103, company_id := 1, branches_eligible := [],
                     courses_eligible := [], job_type := none, job_category := none,
                     job_deadline := none, job_status := some "Open", applicants := [] }
      ∧ createJob acceptAll store0 (some ashaUser) emptyBody = (store0, .error 403) := by
  have h := createJob_spec acceptAll store0 (some acmeUser)
    { emptyBody with company_id := some 2, job_status := some "Open" }
  have h2 := createJob_spec acceptAll store0 (some ashaUser) emptyBody
  refine ⟨?_, ?_⟩
  · rw [((h.1 acmeUser rfl (by decide)).2.2.2.2.2.2.2.2.1 (by decide)).1]
    decide
  · exact h2.2 (fun u hu => by cases hu; decide)

/-! ## Update (C8) -/

/-- C8. An owner-authorised update whose save succeeds: the record stored under
the id afterwards and the record returned are both `Object.assign` of the
body onto the existing record; each field the body names has the body's value
(`job_status` and `company_id` included), each field the body does not name is
as it was, and the identifier is unchanged. -/
theorem updateJob_shallow_merge (validate : Job → Bool) (s : Store) (u : User)
    (jobId : ObjectId) (job : Job) (body : JobBody)
    (hfind : s.findById jobId = some job) (howner : job.company_id = u._id)
    (hvalid : validate (job.assign body) = true) :
    (updateJob validate s (some u) jobId body).2 = .updated (job.assign body)
      ∧ (updateJob validate s (some u) jobId body).1.findById jobId
          = some (job.assign body)
      ∧ (job.assign body)._id = job._id
      ∧ (∀ v, body.company_id = some v → (job.assign body).company_id = v)
      ∧ (body.company_id = none → (job.assign body).company_id = job.company_id)
      ∧ (∀ v, body.branches_eligible = some v → (job.assign body).branches_eligible = v)
      ∧ (body.branches_eligible = none →
          (job.assign body).branches_eligible = job.branches_eligible)
      ∧ (∀ v, body.courses_eligible = some v → (job.assign body).courses_eligible = v)
      ∧ (body.courses_eligible = none →
          (job.assign body).courses_eligible = job.courses_eligible)
      ∧ (∀ v, body.job_type = some v → (job.assign body).job_type = some v)
      ∧ (body.job_type = none → (job.assign body).job_type = job.job_type)
      ∧ (∀ v, body.job_category = some v → (job.assign body).job_category = some v)
      ∧ (body.job_category = none → (job.assign body).job_category = job.job_category)
      ∧ (∀ v, body.job_deadline = some v → (job.assign body).job_deadline = some v)
      ∧ (body.job_deadline = none → (job.assign body).job_deadline = job.job_deadline)
      ∧ (∀ v, body.job_status = some v → (job.assign body).job_status = some v)
      ∧ (body.job_status = none → (job.assign body).job_status = job.job_status)
      ∧ (∀ v, body.applicants = some v → (job.assign body).applicants = v)
      ∧ (body.applicants = none → (job.assign body).applicants = job.applicants) := by
  have hup : updateJob validate s (some u) jobId body
      = (s.save (job.assign body), .updated (job.assign body)) := by
    simp [updateJob, hfind, howner, hvalid]
  have hid0 : job._id = jobId := findById_id hfind
  have hid : (job.assign body)._id = jobId := hid0
  refine ⟨by rw [hup], ?_, rfl, ?_, ?_, ?_, ?_, ?_, ?_, ?_, ?_, ?_, ?_, ?_, ?_, ?_, ?_, ?_, ?_⟩
  · rw [hup]
    exact findById_save hfind hid
  all_goals
    intro h
    try intro h2
    simp_all [Job.assign]

/-- Recruiter 2 updates its own job 102 with a body naming `job_status` and
`job_deadline` only. -/
theorem updateJob_shallow_merge_witness :
    (updateJob acceptAll store0 (some globexUser) 102
        { emptyBody with job_status := some "Open", job_deadline := some 900 }).1.findById 102
      = some { jobC with job_status := some "Open", job_deadline := some 900 } :=
  (updateJob_shallow_merge acceptAll store0 globexUser 102 jobC
    { emptyBody with job_status := some "Open", job_deadline := some 900 }
    (by decide) (by decide) (by decide)).2.1

/-! ## Applied jobs (C9) -/

/-- C9, as stated, fails: an identity that is present and has a `name` field
whose value is the empty string is answered 403. -/
theorem appliedJobs_blank_name_forbidden :
    (some blankUser ≠ none ∧ blankUser.name ≠ none)
      ∧ appliedJobs store0 (some blankUser) = (store0, .error 403) := by
  decide

/-- C9, amended. The applied-jobs view answers 403 exactly when the caller
identity is absent or its `name` is absent or the empty string; in every other
case it answers with the caller's `applied_jobs` as they are; the store is
unchanged in every case. -/
theorem appliedJobs_spec (s : Store) (caller : Option User) :
    ((appliedJobs s caller).2 = .error 403
        ↔ (caller = none ∨ ∃ u, caller = some u ∧ (u.name = none ∨ u.name = some "")))
      ∧ (∀ u, caller = some u → u.name ≠ none → u.name ≠ some "" →
          (appliedJobs s caller).2 = .appliedJobs u.applied_jobs)
      ∧ (appliedJobs s caller).1 = s := by
  cases caller with
  | none => simp [appliedJobs]
  | some u =>
    cases hn : u.name with
    | none => simp [appliedJobs, truthy, hn]
    | some v =>
      by_cases hv : v = ""
      · simp [appliedJobs, truthy, hn, hv]
      · simp [appliedJobs, truthy, hn, hv]

/-! ## The reconciliation loop -/

theorem reconcileAll_snd (now : Int) :
    ∀ (ps : List PopulatedJob) (s : Store),
      (reconcileAll now s ps).2 = ps.map (reconcile now)
  | [], _ => rfl
  | p :: ps, s => by
    by_cases h : isDue now p.job = true
    · simp [reconcileAll, reconcile, h, reconcileAll_snd now ps]
    · simp [reconcileAll, reconcile, h, reconcileAll_snd now ps]

theorem reconcileAll_fst (now : Int) :
    ∀ (ps : List PopulatedJob) (s : Store),
      (reconcileAll now s ps).1 = saveAll s (dueDocs now ps)
  | [], _ => rfl
  | p :: ps, s => by
    by_cases h : isDue now p.job = true
    · simp [reconcileAll, dueDocs, saveAll, h, reconcileAll_fst now ps]
    · simp [reconcileAll, dueDocs, saveAll, h, reconcileAll_fst now ps]

theorem saveAll_jobs :
    ∀ (ds : List Job) (s : Store), (saveAll s ds).jobs = s.jobs.map (overwrite ds)
  | [], s => by simp [saveAll, overwrite]
  | d :: ds, s => by
    rw [saveAll, saveAll_jobs ds (s.save d)]
    simp [Store.save, overwrite, List.map_map, Function.comp_def]

theorem saveAll_rest :
    ∀ (ds : List Job) (s : Store),
      (saveAll s ds).students = s.students ∧ (saveAll s ds).recruiters = s.recruiters
        ∧ (saveAll s ds).nextId = s.nextId
  | [], _ => ⟨rfl, rfl, rfl⟩
  | d :: ds, s => by
    rw [saveAll]
    exact saveAll_rest ds (s.save d)

theorem overwrite_id : ∀ (ds : List Job) (x : Job), (overwrite ds x)._id = x._id
  | [], _ => rfl
  | d :: ds, x => by
    rw [overwrite, overwrite_id ds]
    by_cases h : x._id = d._id
    · simp [h]
    · simp [h]

theorem overwrite_expired :
    ∀ (ds : List Job) (x : Job), (∀ d ∈ ds, d.job_status = some "Expired") →
      x.job_status = some "Expired" → (overwrite ds x).job_status = some "Expired"
  | [], _, _, hx => hx
  | d :: ds, x, hds, hx => by
    rw [overwrite]
    apply overwrite_expired ds _ (fun e he => hds e (List.mem_cons_of_mem _ he))
    by_cases h : x._id = d._id
    · simpa [h] using hds d (List.mem_cons_self _ _)
    · simpa [h] using hx

theorem overwrite_of_ne :
    ∀ (ds : List Job) (x : Job), (∀ d ∈ ds, d._id ≠ x._id) → overwrite ds x = x
  | [], _, _ => rfl
  | d :: ds, x, h => by
    have hd : ¬ x._id = d._id := fun e => h d (List.mem_cons_self _ _) e.symm
    rw [overwrite, if_neg hd]
    exact overwrite_of_ne ds x (fun e he => h e (List.mem_cons_of_mem _ he))

theorem overwrite_fixed :
    ∀ (ds : List Job) (y : Job), (∀ d ∈ ds, d._id = y._id → d = y) → overwrite ds y = y
  | [], _, _ => rfl
  | d :: ds, y, h => by
    have hy : (if y._id = d._id then d else y) = y := by
      by_cases e : y._id = d._id
      · rw [if_pos e]; exact h d (List.mem_cons_self _ _) e.symm
      · rw [if_neg e]
    rw [overwrite, hy]
    exact overwrite_fixed ds y (fun e he => h e (List.mem_cons_of_mem _ he))

theorem overwrite_of_mem :
    ∀ (ds : List Job) (x y : Job), y._id = x._id → (∀ d ∈ ds, d._id = x._id → d = y) →
      (∃ d ∈ ds, d._id = x._id) → overwrite ds x = y
  | [], _, _, _, _, hex => by
    obtain ⟨d, hd, _⟩ := hex
    cases hd
  | d :: ds, x, y, hy, h, hex => by
    rw [overwrite]
    by_cases e : x._id = d._id
    · rw [if_pos e]
      have hdy : d = y := h d (List.mem_cons_self _ _) e.symm
      rw [hdy]
      exact overwrite_fixed ds y
        (fun c hc hcy => h c (List.mem_cons_of_mem _ hc) (hcy.trans hy))
    · rw [if_neg e]
      apply overwrite_of_mem ds x y hy (fun c hc => h c (List.mem_cons_of_mem _ hc))
      obtain ⟨c, hc, hcx⟩ := hex
      rcases List.mem_cons.mp hc with rfl | hc
      · exact absurd hcx.symm e
      · exact ⟨c, hc, hcx⟩

/-! ## The student listing -/

theorem postFilter_eq_filter (q : Query) (l : List PopulatedJob) :
    postFilter q l = l.filter (keptBy q) := by
  unfold postFilter keptBy
  by_cases hc : truthy q.category = true <;> by_cases hp : truthy q.participation_type = true
  · simp [hc, hp, List.filter_filter, Bool.and_comm]
  · simp [hc, hp]
  · simp [hc, hp]
  · simp [hc, hp]

theorem filter_fetchListing (s : Store) (st : Student) (q : Query) :
    (fetchListing s st q).filter (keptBy q)
      = (s.jobs.filter (listed s st q)).map (populate s projListing) := by
  unfold fetchListing
  rw [List.filter_map, List.filter_filter]
  congr 1
  apply List.filter_congr
  intro j _
  simp [listed, Bool.and_comm]

theorem dueDocs_populate (now : Int) (s : Store) (proj : Recruiter → Recruiter)
    (l : List Job) :
    dueDocs now (l.map (populate s proj)) = (l.filter (isDue now)).map markExpired := by
  unfold dueDocs
  rw [List.filter_map, List.map_map]
  rfl

theorem listJobs_eq (s : Store) (u : User) (st : Student) (q : Query) (now : Int)
    (hst : s.findStudent u._id = some st) :
    listJobs s (some u) q now
      = (saveAll s ((s.jobs.filter (fun j => listed s st q j && isDue now j)).map markExpired),
          .jobList (((fetchListing s st q).filter (keptBy q)).map (reconcile now))) := by
  simp only [listJobs, hst]
  rw [reconcileAll_fst, reconcileAll_snd, postFilter_eq_filter, filter_fetchListing,
    dueDocs_populate, List.filter_filter]
  simp only [Bool.and_comm]

theorem keptBy_iff (q : Query) (p : PopulatedJob) :
    keptBy q p = true ↔
      (truthy q.category = true → ∃ r, p.company = some r ∧ r.category = q.category)
      ∧ (truthy q.participation_type = true →
          ∃ r, p.company = some r ∧ r.participation_type = q.participation_type) := by
  have key : ∀ (c : Option String) (f : Recruiter → Option String), truthy c = true →
      ((p.company.bind f == c) = true ↔ ∃ r, p.company = some r ∧ f r = c) := by
    intro c f hc
    cases hco : p.company with
    | none =>
      cases c with
      | none => simp [truthy] at hc
      | some v => simp
    | some r => simp
  unfold keptBy categoryIs participationIs
  by_cases hc : truthy q.category = true <;> by_cases hp : truthy q.participation_type = true
  · simp [hc, hp, key _ _ hc, key _ _ hp]
  · simp [hc, hp, key _ _ hc]
  · simp [hc, hp, key _ _ hp]
  · simp [hc, hp]

theorem reconcile_job_id (now : Int) (p : PopulatedJob) :
    (reconcile now p).job._id = p.job._id := by
  unfold reconcile
  by_cases h : isDue now p.job = true
  · simp [h, markExpired]
  · simp [h]

theorem listed_iff (s : Store) (st : Student) (q : Query) (j : Job) :
    listed s st q j = true ↔
      st.branch ∈ j.branches_eligible ∧ st.course ∈ j.courses_eligible
      ∧ (truthy q.job_type = true → j.job_type = q.job_type)
      ∧ (truthy q.job_category = true → j.job_category = q.job_category)
      ∧ (truthy q.category = true →
          ∃ r, s.findRecruiter j.company_id = some r ∧ r.category = q.category)
      ∧ (truthy q.participation_type = true →
          ∃ r, s.findRecruiter j.company_id = some r
            ∧ r.participation_type = q.participation_type) := by
  unfold listed
  rw [Bool.and_eq_true, keptBy_iff]
  have hm : matchesQuery st q j = true ↔
      st.branch ∈ j.branches_eligible ∧ st.course ∈ j.courses_eligible
      ∧ (truthy q.job_type = true → j.job_type = q.job_type)
      ∧ (truthy q.job_category = true → j.job_category = q.job_category) := by
    unfold matchesQuery
    by_cases h1 : truthy q.job_type = true <;> by_cases h2 : truthy q.job_category = true <;>
      simp [h1, h2, and_assoc]
  have hpop : ∀ f : Recruiter → Option String, (∀ r, f (projListing r) = f r) →
      ((∃ r, (populate s projListing j).company = some r ∧ f r = (q.category))
        ↔ ∃ r, s.findRecruiter j.company_id = some r ∧ f r = q.category) := by
    intro f hf
    unfold populate
    cases s.findRecruiter j.company_id with
    | none => simp
    | some r => simp [hf]
  have hpop2 : ∀ f : Recruiter → Option String, (∀ r, f (projListing r) = f r) →
      ((∃ r, (populate s projListing j).company = some r ∧ f r = (q.participation_type))
        ↔ ∃ r, s.findRecruiter j.company_id = some r ∧ f r = q.participation_type) := by
    intro f hf
    unfold populate
    cases s.findRecruiter j.company_id with
    | none => simp
    | some r => simp [hf]
  rw [hm, hpop (fun r => r.category) (fun _ => rfl),
    hpop2 (fun r => r.participation_type) (fun _ => rfl)]
  simp only [and_assoc]

/-! ### Post-fetch filters (C10) -/

/-- C10. The list the student listing returns is the list fetched from the
store, filtered in order by the post-fetch filters, each kept document having
gone through the reconciliation (which touches `job_status` only).  A
document passes the filters exactly when, for `category` provided (a
non-empty value), its joined recruiter exists and has that category, and, for
`participation_type` provided, its joined recruiter exists and has that
participation type.  With neither provided the fetched list is kept whole; a
document whose recruiter could not be joined is dropped as soon as one of the
two is provided. -/
theorem listJobs_post_filters (s : Store) (u : User) (st : Student) (q : Query)
    (now : Int) (hst : s.findStudent u._id = some st) :
    (listJobs s (some u) q now).2
        = .jobList (((fetchListing s st q).filter (keptBy q)).map (reconcile now))
      ∧ (∀ p, keptBy q p = true ↔
          (truthy q.category = true → ∃ r, p.company = some r ∧ r.category = q.category)
          ∧ (truthy q.participation_type = true →
              ∃ r, p.company = some r ∧ r.participation_type = q.participation_type))
      ∧ (truthy q.category = false → truthy q.participation_type = false →
          (fetchListing s st q).filter (keptBy q) = fetchListing s st q)
      ∧ (∀ p, p.company = none →
          (truthy q.category = true ∨ truthy q.participation_type = true) →
          keptBy q p = false)
      ∧ (∀ p, (reconcile now p).company = p.company
          ∧ (reconcile now p).applicant_docs = p.applicant_docs
          ∧ { (reconcile now p).job with job_status := p.job.job_status } = p.job) := by
  refine ⟨?_, keptBy_iff q, ?_, ?_, ?_⟩
  · rw [listJobs_eq s u st q now hst]
  · intro hc hp
    apply List.filter_eq_self.mpr
    intro p _
    simp [keptBy, hc, hp]
  · intro p hco h
    cases hk : keptBy q p with
    | false => rfl
    | true =>
      have := (keptBy_iff q p).mp hk
      rcases h with h | h
      · obtain ⟨r, hr, _⟩ := this.1 h
        rw [hco] at hr
        cases hr
      · obtain ⟨r, hr, _⟩ := this.2 h
        rw [hco] at hr
        cases hr
  · intro p
    unfold reconcile
    by_cases h : isDue now p.job = true
    · simp [h, markExpired]
    · simp [h]

/-- Asha lists jobs with `category = "Core"`: of the two jobs fetched for her
(100 by an "IT" recruiter, 102 by a "Core" recruiter) only job 102 is
returned. -/
theorem listJobs_post_filters_witness :
    (listJobs store0 (some ashaUser) { noFilter with category := some "Core" } 100).2
      = .jobList [populate store0 projListing jobC] := by
  rw [(listJobs_post_filters store0 ashaUser asha { noFilter with category := some "Core" }
    100 (by decide)).1]
  decide

/-! ### Unique identifiers -/

theorem find?_of_mem_nodup (J : Job) :
    ∀ l : List Job, (l.map (fun j => j._id)).Nodup → J ∈ l →
      l.find? (fun j => j._id == J._id) = some J
  | [], _, hJ => by cases hJ
  | x :: l, hnd, hJ => by
    rw [List.map_cons, List.nodup_cons] at hnd
    rcases List.mem_cons.mp hJ with rfl | hJ
    · simp [List.find?_cons]
    · have hne : (x._id == J._id) = false := by
        have : x._id ≠ J._id := by
          intro e
          apply hnd.1
          rw [e]
          exact List.mem_map_of_mem (fun j => j._id) hJ
        simpa using this
      rw [List.find?_cons, hne]
      exact find?_of_mem_nodup J l hnd.2 hJ

theorem findById_of_mem {s : Store} {J : Job} (huniq : s.uniqueIds) (hJ : J ∈ s.jobs) :
    s.findById J._id = some J :=
  find?_of_mem_nodup J s.jobs huniq hJ

theorem overwrite_filter_map (l : List Job) (hnd : (l.map (fun j => j._id)).Nodup)
    (P : Job → Bool) (x : Job) (hx : x ∈ l) :
    overwrite ((l.filter P).map markExpired) x = if P x = true then markExpired x else x := by
  have hsame : ∀ d ∈ (l.filter P).map markExpired, d._id = x._id →
      d = markExpired x ∧ P x = true := by
    intro d hd hdx
    obtain ⟨z, hz, rfl⟩ := List.mem_map.mp hd
    rw [List.mem_filter] at hz
    have hzx : z = x := List.inj_on_of_nodup_map hnd hz.1 hx hdx
    subst hzx
    exact ⟨rfl, hz.2⟩
  by_cases hP : P x = true
  · rw [if_pos hP]
    apply overwrite_of_mem _ x (markExpired x) rfl (fun d hd hdx => (hsame d hd hdx).1)
    exact ⟨markExpired x, List.mem_map.mpr ⟨x, List.mem_filter.mpr ⟨hx, hP⟩, rfl⟩, rfl⟩
  · rw [if_neg hP]
    exact overwrite_of_ne _ x (fun d hd hdx => hP (hsame d hd hdx).2)

theorem listJobs_store (s : Store) (u : User) (st : Student) (q : Query) (now : Int)
    (hst : s.findStudent u._id = some st) (huniq : s.uniqueIds) :
    (listJobs s (some u) q now).1.jobs
      = s.jobs.map (fun j => if (listed s st q j && isDue now j) = true
          then markExpired j else j) := by
  rw [listJobs_eq s u st q now hst]
  simp only
  rw [saveAll_jobs]
  apply List.map_congr_left
  intro x hx
  exact overwrite_filter_map s.jobs huniq (fun j => listed s st q j && isDue now j) x hx

theorem listJobs_findById (s : Store) (u : User) (st : Student) (q : Query) (now : Int)
    (hst : s.findStudent u._id = some st) (huniq : s.uniqueIds) (J : Job)
    (hJ : J ∈ s.jobs) :
    (listJobs s (some u) q now).1.findById J._id
      = some (if (listed s st q J && isDue now J) = true then markExpired J else J) := by
  unfold Store.findById
  rw [listJobs_store s u st q now hst huniq, find?_map_id]
  · have := findById_of_mem huniq hJ
    unfold Store.findById at this
    rw [this]
    rfl
  · intro j
    by_cases h : (listed s st q j && isDue now j) = true
    · simp [h, markExpired]
    · simp [h]

/-! ### Which jobs are listed (C1) -/

/-- C1, as stated, fails: Asha (CSE, BTech) lists jobs with `category = "Core"`
and no `job_type` / `job_category` filter.  Job 100 has her branch and course
among its eligible ones, yet the returned list holds job 102 only. -/
theorem listJobs_eligible_job_not_returned :
    store0.findStudent ashaUser._id = some asha
      ∧ jobA ∈ store0.jobs
      ∧ asha.branch ∈ jobA.branches_eligible
      ∧ asha.course ∈ jobA.courses_eligible
      ∧ ({ noFilter with category := some "Core" } : Query).job_type = none
      ∧ ({ noFilter with category := some "Core" } : Query).job_category = none
      ∧ (listJobs store0 (some ashaUser) { noFilter with category := some "Core" } 100).2
          = .jobList [populate store0 projListing jobC]
      ∧ (populate store0 projListing jobC).job._id ≠ jobA._id := by
  decide

/-- C1, amended. In a store without duplicate identifiers, for a caller that
resolves to student `st` and any query, a stored job `J` is in the returned
list exactly when `st.branch` is among `J.branches_eligible`, `st.course` is
among `J.courses_eligible`, `J.job_type` / `J.job_category` equal the query's
when those are provided, and, when `category` / `participation_type` are
provided, the recruiter `J.company_id` refers to exists and has that category
/ participation type. -/
theorem listJobs_membership (s : Store) (u : User) (st : Student) (q : Query)
    (now : Int) (J : Job)
    (hst : s.findStudent u._id = some st) (huniq : s.uniqueIds) (hJ : J ∈ s.jobs) :
    ∃ l, (listJobs s (some u) q now).2 = .jobList l
      ∧ ((∃ p ∈ l, p.job._id = J._id) ↔
          st.branch ∈ J.branches_eligible ∧ st.course ∈ J.courses_eligible
          ∧ (truthy q.job_type = true → J.job_type = q.job_type)
          ∧ (truthy q.job_category = true → J.job_category = q.job_category)
          ∧ (truthy q.category = true →
              ∃ r, s.findRecruiter J.company_id = some r ∧ r.category = q.category)
          ∧ (truthy q.participation_type = true →
              ∃ r, s.findRecruiter J.company_id = some r
                ∧ r.participation_type = q.participation_type)) := by
  refine ⟨_, by rw [listJobs_eq s u st q now hst], ?_⟩
  rw [← listed_iff, filter_fetchListing]
  constructor
  · rintro ⟨p, hp, hpid⟩
    obtain ⟨p0, hp0, rfl⟩ := List.mem_map.mp hp
    obtain ⟨j, hj, rfl⟩ := List.mem_map.mp hp0
    rw [List.mem_filter] at hj
    rw [reconcile_job_id] at hpid
    have hjJ : j = J := List.inj_on_of_nodup_map huniq hj.1 hJ hpid
    rw [← hjJ]
    exact hj.2
  · intro hl
    refine ⟨reconcile now (populate s projListing J), ?_, reconcile_job_id now _⟩
    exact List.mem_map_of_mem _ (List.mem_map_of_mem _ (List.mem_filter.mpr ⟨hJ, hl⟩))

/-- Scenario B: Asha (CSE, BTech) lists jobs without filters; job 100
(branches CSE and ECE) is returned. -/
theorem listJobs_membership_witness :
    ∃ l, (listJobs store0 (some ashaUser) noFilter 100).2 = .jobList l
      ∧ ((∃ p ∈ l, p.job._id = jobA._id) ↔
          asha.branch ∈ jobA.branches_eligible ∧ asha.course ∈ jobA.courses_eligible
          ∧ (truthy noFilter.job_type = true → jobA.job_type = noFilter.job_type)
          ∧ (truthy noFilter.job_category = true → jobA.job_category = noFilter.job_category)
          ∧ (truthy noFilter.category = true →
              ∃ r, store0.findRecruiter jobA.company_id = some r
                ∧ r.category = noFilter.category)
          ∧ (truthy noFilter.participation_type = true →
              ∃ r, store0.findRecruiter jobA.company_id = some r
                ∧ r.participation_type = noFilter.participation_type)) :=
  listJobs_membership store0 ashaUser asha noFilter 100 jobA (by decide)
    (by unfold Store.uniqueIds; decide) (by decide)

/-! ### Which jobs the listing expires (C6) -/

/-- C6, as stated, fails: Asha lists jobs with `participation_type = "Onsite"`.
Job 100 is fetched by the store query, its deadline (50) is strictly before
the current time (100) and it is stored as Open; its recruiter is "Virtual",
so the post-fetch filter drops it, and after the call it is still stored as
Open. -/
theorem listJobs_fetched_job_not_expired :
    populate store0 projListing jobA
        ∈ fetchListing store0 asha { noFilter with participation_type := some "Onsite" }
      ∧ jobA.job_deadline = some 50
      ∧ jobA.job_status = some "Open"
      ∧ (listJobs store0 (some ashaUser)
          { noFilter with participation_type := some "Onsite" } 100).1.findById 100
          = some jobA := by
  decide

/-- C6, amended. In a store without duplicate identifiers, for a caller that
resolves to student `st` and any query: a stored job that the store query
fetches and that the post-fetch `category` / `participation_type` filters
keep, whose deadline is strictly before the current time and whose status is
not Expired, is stored afterwards with `job_status = "Expired"` (and is
otherwise the same record); a job whose deadline is not strictly before the
current time is stored afterwards exactly as before; so is a job that the
store query does not fetch or that a post-fetch filter drops. -/
theorem listJobs_expires_listed (s : Store) (u : User) (st : Student) (q : Query)
    (now : Int) (J : Job)
    (hst : s.findStudent u._id = some st) (huniq : s.uniqueIds) (hJ : J ∈ s.jobs) :
    (matchesQuery st q J = true → keptBy q (populate s projListing J) = true →
        (∃ d, J.job_deadline = some d ∧ d < now) → J.job_status ≠ some "Expired" →
        (listJobs s (some u) q now).1.findById J._id = some (markExpired J)
          ∧ (markExpired J).job_status = some "Expired")
      ∧ ((∀ d, J.job_deadline = some d → ¬ d < now) →
          (listJobs s (some u) q now).1.findById J._id = some J)
      ∧ ((matchesQuery st q J = false ∨ keptBy q (populate s projListing J) = false) →
          (listJobs s (some u) q now).1.findById J._id = some J) := by
  rw [listJobs_findById s u st q now hst huniq J hJ]
  refine ⟨?_, ?_, ?_⟩
  · rintro hm hk ⟨d, hd, hlt⟩ hs
    have hdue : isDue now J = true := by
      simp [isDue, deadlinePassed, hd, hlt, hs]
    simp [listed, hm, hk, hdue, markExpired]
  · intro hd
    have hdue : isDue now J = false := by
      cases hdl : J.job_deadline with
      | none => simp [isDue, deadlinePassed, hdl]
      | some d => simp [isDue, deadlinePassed, hdl, hd d hdl]
    simp [hdue]
  · intro h
    have hl : listed s st q J = false := by
      rcases h with h | h <;> simp [listed, h]
    simp [hl]


/-- The listing of Asha without filters at time 100 expires job 100. -/
theorem listJobs_expires_listed_witness :
    (listJobs store0 (some ashaUser) noFilter 100).1.findById 100 = some (markExpired jobA) :=
  ((listJobs_expires_listed store0 ashaUser asha noFilter 100 jobA (by decide)
    (by unfold Store.uniqueIds; decide) (by decide)).1 (by decide) (by decide)
    ⟨50, by decide, by decide⟩ (by decide)).1

/-! ## Expiry over sequences of requests (C2) -/

/-- C2, as stated, fails: job 102 is stored as Expired; its owner sends an
update whose body names `job_status = "Open"`; afterwards the job is stored as
Open. -/
theorem update_reverts_expired :
    (store0.findById 102).map (fun j => j.job_status) = some (some "Expired")
      ∧ ((run acceptAll store0
            [.update (some globexUser) 102 { emptyBody with job_status := some "Open" }]).findById
          102).map (fun j => j.job_status) = some (some "Open") := by
  decide

theorem save_inv (s : Store) (i : ObjectId) (doc : Job)
    (hdoc : doc._id = i → doc.job_status = some "Expired")
    (hids : s.idsBelowNext) (hexp : s.expiredAt i) :
    (s.save doc).idsBelowNext ∧ (s.save doc).expiredAt i := by
  constructor
  · intro j hj
    simp only [Store.save, List.mem_map] at hj
    obtain ⟨x, hx, rfl⟩ := hj
    show _ < s.nextId
    by_cases h : x._id = doc._id
    · rw [if_pos h, ← h]; exact hids x hx
    · rw [if_neg h]; exact hids x hx
  · intro j hj hji
    simp only [Store.save, List.mem_map] at hj
    obtain ⟨x, hx, rfl⟩ := hj
    by_cases h : x._id = doc._id
    · rw [if_pos h] at hji ⊢; exact hdoc hji
    · rw [if_neg h] at hji ⊢; exact hexp x hx hji

theorem saveAll_inv (i : ObjectId) :
    ∀ (ds : List Job) (s : Store), (∀ d ∈ ds, d.job_status = some "Expired") →
      s.idsBelowNext → s.expiredAt i →
      (saveAll s ds).idsBelowNext ∧ (saveAll s ds).expiredAt i
  | [], _, _, hids, hexp => ⟨hids, hexp⟩
  | d :: ds, s, hds, hids, hexp => by
    have h := save_inv s i d (fun _ => hds d (List.mem_cons_self _ _)) hids hexp
    rw [saveAll]
    exact saveAll_inv i ds (s.save d) (fun e he => hds e (List.mem_cons_of_mem _ he)) h.1 h.2

theorem dueDocs_expired (now : Int) (ps : List PopulatedJob) :
    ∀ d ∈ dueDocs now ps, d.job_status = some "Expired" := by
  intro d hd
  unfold dueDocs at hd
  obtain ⟨p, _, rfl⟩ := List.mem_map.mp hd
  rfl

theorem reconcileAll_inv (i : ObjectId) (now : Int) (ps : List PopulatedJob) (s : Store)
    (hids : s.idsBelowNext) (hexp : s.expiredAt i) :
    (reconcileAll now s ps).1.idsBelowNext ∧ (reconcileAll now s ps).1.expiredAt i := by
  rw [reconcileAll_fst]
  exact saveAll_inv i _ s (dueDocs_expired now ps) hids hexp

theorem reconcileAll_nextId (now : Int) (ps : List PopulatedJob) (s : Store) :
    (reconcileAll now s ps).1.nextId = s.nextId := by
  rw [reconcileAll_fst]
  exact (saveAll_rest _ s).2.2

theorem step_inv (validate : Job → Bool) (s : Store) (i : ObjectId) (r : Request)
    (hr : revertsStatus i r = false)
    (hids : s.idsBelowNext) (hlt : i < s.nextId) (hexp : s.expiredAt i) :
    (step validate s r).1.idsBelowNext ∧ i < (step validate s r).1.nextId
      ∧ (step validate s r).1.expiredAt i := by
  cases r with
  | create caller body =>
    simp only [step, createJob]
    cases caller with
    | none => exact ⟨hids, hlt, hexp⟩
    | some u =>
      by_cases hm : truthy u.org_name = true
      · by_cases hv : validate (Job.construct s.nextId body u._id) = true
        · simp only [hm, hv, Bool.not_true, Bool.false_eq_true, if_false, if_true]
          refine ⟨?_, ?_, ?_⟩
          · intro j hj
            simp only [Store.insert, List.mem_append, List.mem_singleton] at hj ⊢
            rcases hj with hj | rfl
            · exact Nat.lt_succ_of_lt (hids j hj)
            · exact Nat.lt_succ_self _
          · exact Nat.lt_succ_of_lt hlt
          · intro j hj hji
            simp only [Store.insert, List.mem_append, List.mem_singleton] at hj
            rcases hj with hj | rfl
            · exact hexp j hj hji
            · exact absurd hji (Nat.ne_of_gt hlt)
        · simp only [hm, hv, Bool.not_true, Bool.false_eq_true, if_false]
          exact ⟨hids, hlt, hexp⟩
      · simp only [hm, Bool.not_eq_true] at hm ⊢
        simp only [hm, Bool.not_false, if_true]
        exact ⟨hids, hlt, hexp⟩
  | list caller q now =>
    cases caller with
    | none => exact ⟨hids, hlt, hexp⟩
    | some u =>
      cases hst : s.findStudent u._id with
      | none =>
        simp only [step, listJobs, hst]
        exact ⟨hids, hlt, hexp⟩
      | some st =>
        simp only [step, listJobs, hst]
        have h := reconcileAll_inv i now (postFilter q (fetchListing s st q)) s hids hexp
        exact ⟨h.1, by rw [reconcileAll_nextId]; exact hlt, h.2⟩
  | listRecruiter caller now =>
    simp only [step, listRecruiterJobs]
    cases caller with
    | none => exact ⟨hids, hlt, hexp⟩
    | some u =>
      by_cases hm : truthy u.org_name = true
      · simp only [hm, Bool.not_true, Bool.false_eq_true, if_false]
        have h := reconcileAll_inv i now
          ((s.jobs.filter (fun j => j.company_id == u._id)).map
            (fun j => populateApplicants s (populate s projContact j))) s hids hexp
        exact ⟨h.1, by rw [reconcileAll_nextId]; exact hlt, h.2⟩
      · simp only [Bool.not_eq_true] at hm
        simp only [hm, Bool.not_false, if_true]
        exact ⟨hids, hlt, hexp⟩
  | update caller jobId body =>
    simp only [step, updateJob]
    cases hfind : s.findById jobId with
    | none => exact ⟨hids, hlt, hexp⟩
    | some job =>
      cases caller with
      | none => exact ⟨hids, hlt, hexp⟩
      | some u =>
        by_cases ho : job.company_id = u._id
        · by_cases hv : validate (job.assign body) = true
          · simp only [ho, hv, ne_eq, not_true_eq_false, if_false, if_true]
            have hdoc : (job.assign body)._id = i →
                (job.assign body).job_status = some "Expired" := by
              intro hid
              have hji : job._id = i := hid
              have hjob : jobId = i := (findById_id hfind).symm.trans hji
              have hold := hexp job (findById_mem hfind) hji
              simp only [revertsStatus, hjob, beq_self_eq_true, Bool.true_and] at hr
              cases hb : body.job_status with
              | none => simp [Job.assign, hb, hold]
              | some v =>
                rw [hb] at hr
                have hv2 : v = "Expired" := by simpa using hr
                simp [Job.assign, hb, hv2]
            have h := save_inv s i (job.assign body) hdoc hids hexp
            exact ⟨h.1, hlt, h.2⟩
          · simp only [ho, hv, ne_eq, not_true_eq_false, if_false, Bool.false_eq_true]
            exact ⟨hids, hlt, hexp⟩
        · simp only [ne_eq, ho, not_false_eq_true, if_true]
          exact ⟨hids, hlt, hexp⟩
  | delete caller jobId =>
    simp only [step, deleteJob]
    cases hfind : s.findById jobId with
    | none => exact ⟨hids, hlt, hexp⟩
    | some job =>
      cases caller with
      | none => exact ⟨hids, hlt, hexp⟩
      | some u =>
        by_cases ho : job.company_id = u._id
        · simp only [ho, ne_eq, not_true_eq_false, if_false]
          refine ⟨?_, hlt, ?_⟩
          · intro j hj
            simp only [Store.deleteOne, List.mem_filter] at hj
            exact hids j hj.1
          · intro j hj hji
            simp only [Store.deleteOne, List.mem_filter] at hj
            exact hexp j hj.1 hji
        · simp only [ne_eq, ho, not_false_eq_true, if_true]
          exact ⟨hids, hlt, hexp⟩
  | applied caller =>
    simp only [step, appliedJobs]
    cases caller with
    | none => exact ⟨hids, hlt, hexp⟩
    | some u =>
      by_cases hm : truthy u.name = true
      · simp only [hm, Bool.not_true, Bool.false_eq_true, if_false]
        exact ⟨hids, hlt, hexp⟩
      · simp only [Bool.not_eq_true] at hm
        simp only [hm, Bool.not_false, if_true]
        exact ⟨hids, hlt, hexp⟩
  | get jobId now =>
    simp only [step, getJob]
    cases hfind : s.findById jobId with
    | none => exact ⟨hids, hlt, hexp⟩
    | some job =>
      by_cases hd : isDue now job = true
      · by_cases hv : validate (markExpired job) = true
        · simp only [hd, hv, if_true]
          have h := save_inv s i (markExpired job) (fun _ => rfl) hids hexp
          exact ⟨h.1, hlt, h.2⟩
        · simp only [hd, hv, if_true, Bool.false_eq_true, if_false]
          exact ⟨hids, hlt, hexp⟩
      · simp only [hd, Bool.false_eq_true, if_false]
        exact ⟨hids, hlt, hexp⟩

theorem run_inv (validate : Job → Bool) (i : ObjectId) :
    ∀ (reqs : List Request) (s : Store), (∀ r ∈ reqs, revertsStatus i r = false) →
      s.idsBelowNext → i < s.nextId → s.expiredAt i → (run validate s reqs).expiredAt i
  | [], _, _, _, _, hexp => hexp
  | r :: rs, s, hreq, hids, hlt, hexp => by
    have h := step_inv validate s i r (hreq r (List.mem_cons_self _ _)) hids hlt hexp
    rw [run]
    exact run_inv validate i rs _ (fun x hx => hreq x (List.mem_cons_of_mem _ hx)) h.1 h.2.1 h.2.2

/-- C2, amended. In a store whose job identifiers were all handed out by the
identifier supply, take a job stored as Expired and any sequence of the
listed operations (create, student listing, recruiter listing, get single
job, update, delete, applied-jobs) in which no update addressed to that job
has a body naming a `job_status` other than `"Expired"` (any other body,
deadline edits included, is allowed, and so is any update of another job):
after the sequence every stored job with that identifier is still Expired. -/
theorem expiry_monotonic (validate : Job → Bool) (s : Store) (i : ObjectId)
    (reqs : List Request)
    (hids : ∀ j ∈ s.jobs, j._id < s.nextId)
    (hex : ∃ j ∈ s.jobs, j._id = i)
    (hexp : ∀ j ∈ s.jobs, j._id = i → j.job_status = some "Expired")
    (hreq : ∀ r ∈ reqs, revertsStatus i r = false) :
    ∀ j ∈ (run validate s reqs).jobs, j._id = i → j.job_status = some "Expired" := by
  obtain ⟨j0, hj0, hj0i⟩ := hex
  have hlt : i < s.nextId := hj0i ▸ hids j0 hj0
  exact run_inv validate i reqs s hreq hids hlt hexp

/-- Job 102 of the sample store is Expired; after the nine requests of
`requests0` (among them a deadline edit of job 102 by its owner and a status
edit of another job) it is still stored, and stored as Expired. -/
theorem expiry_monotonic_witness :
    (∃ j ∈ (run acceptAll store0 requests0).jobs, j._id = 102)
      ∧ ∀ j ∈ (run acceptAll store0 requests0).jobs, j._id = 102 →
          j.job_status = some "Expired" :=
  ⟨by decide,
    expiry_monotonic acceptAll store0 102 requests0 (by decide) (by decide) (by decide)
      (by decide)⟩

end CampusHire
